import Mathlib

/-!
Verification development for the client-side synchronization core of a
real-time multiplayer game (source: `src/client/game/ClientGame.js`).

The embedding translates the relevant functions of `ClientGame.js` into
executable Lean definitions:

* JavaScript numbers are modelled as exact rationals (`ℚ`).  The only place
  where IEEE special values (`NaN`, `±Infinity`) matter is the guarded
  division in `processNetworkUpdates`; for finite inputs those special values
  arise exactly when the denominator is zero, so the guard is embedded as a
  zero-denominator test (see `timePoint`).
* Mutable maps keyed by player id (game players, server ghosts, local ghosts)
  are modelled as association lists with `lookupAssoc` / `setAssoc`.
* The player object (`ClientPlayer` / `AbstractGame`) is not part of the
  given sources; its trivial accessors (`pushInput`, `getInputs`,
  `clearInputs`, `setPosition`, `setLastInputSeq`) are modelled from the
  spec, as documented on the corresponding definitions.
-/

namespace ClientGame

/-- A 2-D position, `{x, y}` in the JavaScript source. -/
structure Pos where
  x : ℚ
  y : ℚ
deriving DecidableEq, Repr, Inhabited

/-- `interpolate(p, n, interpolation)` from ClientGame.js:
clamps the factor into `[0,1]` and returns `p + interpolation * (n - p)`. -/
def interpolate (p n t : ℚ) : ℚ :=
  p + (max 0 (min 1 t)) * (n - p)

/-- `lerp(a, b, interpolation)` from ClientGame.js: componentwise
`interpolate` on the `x` and `y` fields. -/
def lerp (a b : Pos) (t : ℚ) : Pos :=
  ⟨interpolate a.x b.x t, interpolate a.y b.y t⟩

/-- One entry of a snapshot's `players` array: `{ id, position }`. -/
structure PlayerSnap where
  id : String
  position : Pos
deriving DecidableEq, Repr, Inhabited

/-- A bullet event carried by a snapshot.  Besides `firedBy` the server data
carries historical coordinates, which the client overwrites on spawn
(`Object.assign({}, bullet, { x: position.x, y: position.y })`). -/
structure Bullet where
  firedBy : String
  x : ℚ
  y : ℚ
deriving DecidableEq, Repr, Inhabited

/-- A game event carried by a snapshot: `{ id, name, firedBy }`. -/
structure GEvent where
  id : String
  name : String
  firedBy : String
deriving DecidableEq, Repr, Inhabited

/-- The `ownPlayer` field of a snapshot.  `lastInputSeq` is a number or
absent; `none` models "absent", and the JavaScript truthiness test
`if (serverInputSeq)` additionally treats the number `0` as falsy. -/
structure OwnPlayer where
  position : Pos
  lastInputSeq : Option Nat
deriving DecidableEq, Repr, Inhabited

/-- One server update (snapshot), as received by `onServerUpdate`. -/
structure Snapshot where
  serverTime : ℚ
  ownPlayer : OwnPlayer
  players : List PlayerSnap
  bullets : List Bullet
  events : List GEvent
deriving DecidableEq, Repr, Inhabited

/-! ### Association-list maps (player-id keyed mutable maps) -/

/-- Lookup in an association list keyed by player id
(models `Map.get` / `game.getPlayerById`). -/
def lookupAssoc : List (String × Pos) → String → Option Pos
  | [], _ => none
  | (k, v) :: rest, q => if k = q then some v else lookupAssoc rest q

/-- Update (or insert) in an association list keyed by player id
(models assigning a position to an existing entity via `setPosition`). -/
def setAssoc : List (String × Pos) → String → Pos → List (String × Pos)
  | [], q, v => [(q, v)]
  | (k, w) :: rest, q, v =>
      if k = q then (q, v) :: rest else (k, w) :: setAssoc rest q v

theorem lookupAssoc_setAssoc_same (m : List (String × Pos)) (k : String) (v : Pos) :
    lookupAssoc (setAssoc m k v) k = some v := by
  induction m with
  | nil => simp [setAssoc, lookupAssoc]
  | cons hd tl ih =>
      obtain ⟨k', w⟩ := hd
      by_cases h : k' = k
      · simp [setAssoc, h, lookupAssoc]
      · simp [setAssoc, h, lookupAssoc, ih]

theorem lookupAssoc_setAssoc_ne (m : List (String × Pos)) (k q : String) (v : Pos)
    (h : k ≠ q) : lookupAssoc (setAssoc m k v) q = lookupAssoc m q := by
  induction m with
  | nil => simp [setAssoc, lookupAssoc, h]
  | cons hd tl ih =>
      obtain ⟨k', w⟩ := hd
      by_cases h' : k' = k
      · subst h'
        simp [setAssoc, lookupAssoc, h]
      · simp [setAssoc, h', lookupAssoc, ih]

/-- `setAssoc` on a key that is present does not change the key set:
lookups of every key keep their definedness. -/
theorem lookupAssoc_setAssoc_isSome (m : List (String × Pos)) (k q : String)
    (v w : Pos) (hk : lookupAssoc m k = some w) :
    (lookupAssoc (setAssoc m k v) q).isSome = (lookupAssoc m q).isSome := by
  by_cases h : k = q
  · subst h
    rw [lookupAssoc_setAssoc_same, hk]
    rfl
  · rw [lookupAssoc_setAssoc_ne m k q v h]

/-! ### Input sequencer (`updateInput`, ClientGame.js lines 95–118) -/

/-- An input frame as pushed by `updateInput`:
`{ inputs, time: game.getTime(), seq: inputSeq }`. -/
structure InputFrame where
  inputs : List String
  time : ℚ
  seq : Nat
deriving DecidableEq, Repr, Inhabited

/-- JavaScript `String.prototype.replace` with the string pattern `'.'`:
replaces only the first occurrence of `'.'` by `'-'`. -/
def replaceFirstDot : List Char → List Char
  | [] => []
  | c :: cs => if c = '.' then '-' :: cs else c :: replaceFirstDot cs

/-- `s.replace('.', '-')` on the rendered local time. -/
def jsReplaceDot (s : String) : String :=
  ⟨replaceFirstDot s.data⟩

/-- Result of one `updateInput` call: the new value of the `inputSeq`
counter, the frame pushed onto the local player's pending-input list (if
any), and the string handed to `network.send` (if any).

The push onto the pending list is modelled from the spec: the player object
is not part of the given sources, and per the spec `pushInput` appends the
frame to an ordered pending-inputs list. -/
structure CaptureResult where
  inputSeq : Nat
  pushed : Option InputFrame
  message : Option String
deriving DecidableEq, Repr

/-- `updateInput()` from ClientGame.js.  `input` is the list returned by
`inputHandler.getInput()`; `time` is the value of `game.getTime()` and
`timeStr` its JavaScript decimal rendering (`game.getTime().toString()`). -/
def updateInput (input : List String) (hasLocalPlayer hasNetwork : Bool)
    (time : ℚ) (timeStr : String) (inputSeq : Nat) : CaptureResult :=
  if 0 < input.length ∧ hasLocalPlayer then
    -- Update what sequence we are on now
    let newSeq := inputSeq + 1
    let frame : InputFrame := ⟨input, time, newSeq⟩
    let message :=
      if hasNetwork then
        some ("i." ++ String.intercalate "-" input ++ "."
          ++ jsReplaceDot timeStr ++ "." ++ toString newSeq)
      else none
    ⟨newSeq, some frame, message⟩
  else
    ⟨inputSeq, none, none⟩

/-- One observable capture request: the polled input codes, whether a local
player is currently set, and the local clock at that moment. -/
structure CaptureOp where
  input : List String
  hasLocalPlayer : Bool
  time : ℚ
  timeStr : String
deriving Repr, Inhabited

/-- The input-sequencer state: the `inputSeq` counter and the local player's
pending-input list (every frame ever pushed, before any reconciliation). -/
structure SequencerState where
  inputSeq : Nat
  pending : List InputFrame
deriving DecidableEq, Repr

/-- One `updateInput` call applied to the sequencer state. -/
def captureStep (st : SequencerState) (op : CaptureOp) : SequencerState :=
  let r := updateInput op.input op.hasLocalPlayer true op.time op.timeStr st.inputSeq
  { inputSeq := r.inputSeq,
    pending :=
      match r.pushed with
      | some f => st.pending ++ [f]
      | none => st.pending }

/-- A whole session of capture requests. -/
def runCaptures (st : SequencerState) : List CaptureOp → SequencerState
  | [] => st
  | op :: ops => runCaptures (captureStep st op) ops

/-- The initial sequencer state: `let inputSeq = 0` and an empty pending
list. -/
def initialSequencer : SequencerState := ⟨0, []⟩

/-! ### Snapshot buffer push (`onServerUpdate`, ClientGame.js lines 209–215) -/

/-- The non-naive buffering branch of `onServerUpdate`: append the snapshot,
then, if the buffer has reached `60 * options.networkBufferSize` entries,
`splice(0, 1)` — remove exactly the front (oldest) element. -/
def onServerUpdatePush (serverUpdates : List Snapshot) (data : Snapshot)
    (networkBufferSize : ℚ) : List Snapshot :=
  let pushed := serverUpdates ++ [data]
  -- we limit the buffer in seconds worth of updates
  -- 60fps * buffer seconds = number of samples
  if (pushed.length : ℚ) ≥ 60 * networkBufferSize then pushed.drop 1 else pushed

/-! ### Prediction & reconciliation (`clientPrediction`, ClientGame.js
lines 120–165) -/

/-- The local player as seen by `clientPrediction`.

Modelled from the spec: the player object itself is not part of the given
sources; per the spec it "exposes position, … its pending-input list, and
its last-acknowledged input sequence number", with pending entries "removed
only by reconciliation (oldest-first)".  Accordingly `getInputs` returns
`pending`, `clearInputs n` drops the `n` oldest entries from the front,
`setPosition` overwrites `position`, and `setLastInputSeq` overwrites
`lastInputSeqStore`. -/
structure LocalPlayer where
  position : Pos
  pending : List InputFrame
  lastInputSeqStore : Nat
deriving DecidableEq, Repr, Inhabited

/-- State touched by `clientPrediction`: the local player and the local
player's server ghost (debug position block). -/
structure PredictionState where
  player : LocalPlayer
  serverGhost : Pos
deriving DecidableEq, Repr, Inhabited

/-- `clientPrediction()` from ClientGame.js, applied to the most recent
server update (`serverUpdates[serverUpdates.length - 1]`).

Faithful structure: everything — the scan, the crop, the position snap and
also the server-ghost update — happens inside `if (serverInputSeq)`, i.e.
only when `ownPlayer.lastInputSeq` is truthy (present and nonzero).
The crop count is `Math.abs(lastInputSeqIndex - (-1)) = lastInputSeqIndex + 1`,
and `setLastInputSeq` receives the list index `lastInputSeqIndex`, not the
acknowledged sequence number. -/
def clientPrediction (latestServerUpdate : Snapshot) (st : PredictionState) :
    PredictionState :=
  match latestServerUpdate.ownPlayer.lastInputSeq with
  | none => st
  | some serverInputSeq =>
    if serverInputSeq = 0 then st
    else
      let st1 :=
        match List.findIdx? (fun f => f.seq = serverInputSeq) st.player.pending with
        | some lastInputSeqIndex =>
            { st with player :=
              { position := latestServerUpdate.ownPlayer.position,
                pending := st.player.pending.drop (lastInputSeqIndex + 1),
                lastInputSeqStore := lastInputSeqIndex } }
        | none => st
      -- Update the debug server position block
      { st1 with serverGhost := latestServerUpdate.ownPlayer.position }

/-! ### Interpolation engine (`processNetworkUpdates`, ClientGame.js
lines 234–341) -/

/-- The timeline search of `processNetworkUpdates` (lines 249–259): scan the
buffer oldest→newest for the first adjacent pair `(point, nextPoint)` with
`clientTime > point.serverTime && clientTime < nextPoint.serverTime`,
returning `(previous, target)`. -/
def findBracket (clientTime : ℚ) : List Snapshot → Option (Snapshot × Snapshot)
  | point :: nextPoint :: rest =>
      if point.serverTime < clientTime ∧ clientTime < nextPoint.serverTime then
        some (point, nextPoint)
      else findBracket clientTime (nextPoint :: rest)
  | _ => none

/-- The fallback of lines 261–266: with no bracketing pair, both `target`
and `previous` become `serverUpdates[0]`, the oldest buffered snapshot. -/
def selectPair (clientTime : ℚ) (serverUpdates : List Snapshot) :
    Snapshot × Snapshot :=
  match findBracket clientTime serverUpdates with
  | some pr => pr
  | none => (serverUpdates.head?.getD default, serverUpdates.head?.getD default)

/-- Lines 277–285: `timePoint = difference / max_difference`, with the
`Number.isNaN / Infinity` guard forcing the value to `0`.  Over exact
rationals the guard fires exactly when `max_difference = 0` (a finite
numerator divided by a nonzero finite denominator is finite, while division
by zero yields `NaN` or `±Infinity` in JavaScript). -/
def timePoint (clientTime : ℚ) (previous target : Snapshot) : ℚ :=
  let difference := target.serverTime - clientTime
  let max_difference := target.serverTime - previous.serverTime
  if max_difference = 0 then 0 else difference / max_difference

/-- Mutable state read and written by the remote-player loop of
`processNetworkUpdates`: the positions of the game's players, the two ghost
maps, and the observable replay effects (bullets spawned with the position
assigned by `Object.assign`, events fired). -/
structure PassState where
  positions : List (String × Pos)
  serverGhosts : List (String × Pos)
  localGhosts : List (String × Pos)
  spawned : List (Bullet × Pos)
  fired : List GEvent
deriving DecidableEq, Repr, Inhabited

/-- The bullet-replay loop (lines 321–329): each bullet of the `target`
snapshot is spawned at `game.getPlayerById(bullet.firedBy).getPosition()`.
If the firing player is absent, `player.getPosition()` throws in
JavaScript; this is modelled by returning `none`. -/
def runBullets (bullets : List Bullet) (st : PassState) : Option PassState :=
  match bullets with
  | [] => some st
  | b :: rest =>
      match lookupAssoc st.positions b.firedBy with
      | none => none
      | some position =>
          runBullets rest { st with spawned := st.spawned ++ [(b, position)] }

/-- The event-replay loop (lines 331–338): each event of the `target`
snapshot is handed to `game.onEvent`.  (The firing player is merely looked
up and passed along, so a missing player does not throw here.) -/
def runEvents (events : List GEvent) (st : PassState) : PassState :=
  match events with
  | [] => st
  | e :: rest => runEvents rest { st with fired := st.fired ++ [e] }

/-- Per-remote-player options of `processNetworkUpdates`. -/
structure Options where
  naiveApproach : Bool
  clientPrediction : Bool
  clientSmoothing : Bool
deriving DecidableEq, Repr, Inhabited

/-- One iteration of the remote-player loop (lines 290–341), at index `i` of
`latestServerUpdate.players`:

* skipped unless `target.players[i] && previous.players[i]` and
  `game.getPlayerById(playerData.id)` is present;
* `ghosts.server` snaps to the latest snapshot's reported position;
* `ghosts.local` is set to `lerp(previousPosition, targetPosition, timePoint)`;
* the player's rendered position is the local-ghost position, smoothed
  through `lerp(player.getPosition(), ghosts.local.getPosition(),
  interpolation)` when `options.clientSmoothing` is on;
* then every bullet and every event of the `target` snapshot is replayed
  inside this same iteration. -/
def remotePlayerStep (opts : Options) (interpolation tp : ℚ)
    (latestServerUpdate target previous : Snapshot) (st : PassState)
    (i : Nat) : Option PassState :=
  match latestServerUpdate.players.get? i with
  | none => some st
  | some playerData =>
    let serverPosition := playerData.position
    match target.players.get? i, previous.players.get? i with
    | some targetPlayer, some previousPlayer =>
      match lookupAssoc st.positions playerData.id with
      | none => some st
      | some playerPos =>
        let st := { st with
          serverGhosts := setAssoc st.serverGhosts playerData.id serverPosition }
        let localGhostPosition :=
          lerp previousPlayer.position targetPlayer.position tp
        let st := { st with
          localGhosts := setAssoc st.localGhosts playerData.id localGhostPosition }
        let newPos :=
          if opts.clientSmoothing then lerp playerPos localGhostPosition interpolation
          else localGhostPosition
        let st := { st with
          positions := setAssoc st.positions playerData.id newPos }
        match runBullets target.bullets st with
        | none => none
        | some st => some (runEvents target.events st)
    | _, _ => some st

/-- Sequential execution of loop iterations (the `for` loop driver);
a thrown exception (`none`) aborts the rest of the loop. -/
def runSteps (f : PassState → Nat → Option PassState) :
    List Nat → PassState → Option PassState
  | [], st => some st
  | i :: rest, st =>
      match f st i with
      | none => none
      | some st' => runSteps f rest st'

/-- The whole remote-player loop of `processNetworkUpdates`:
`for (let i = 0; i < latestServerUpdate.players.length; i++) …`. -/
def remoteLoop (opts : Options) (interpolation tp : ℚ)
    (latestServerUpdate target previous : Snapshot) (st : PassState) :
    Option PassState :=
  runSteps (remotePlayerStep opts interpolation tp latestServerUpdate target previous)
    (List.range latestServerUpdate.players.length) st

/-! ### Basic lemmas about `interpolate`, `lerp` and `timePoint` -/

theorem interpolate_of_unit (p n t : ℚ) (h0 : 0 ≤ t) (h1 : t ≤ 1) :
    interpolate p n t = p + t * (n - p) := by
  unfold interpolate
  rw [min_eq_right h1, max_eq_right h0]

theorem interpolate_zero (p n : ℚ) : interpolate p n 0 = p := by
  simp [interpolate]

theorem interpolate_one (p n : ℚ) : interpolate p n 1 = n := by
  simp [interpolate]

theorem lerp_zero (a b : Pos) : lerp a b 0 = a := by
  simp [lerp, interpolate_zero]

theorem lerp_one (a b : Pos) : lerp a b 1 = b := by
  simp [lerp, interpolate_one]

theorem lerp_half (a b : Pos) :
    lerp a b (1 / 2) = ⟨(a.x + b.x) / 2, (a.y + b.y) / 2⟩ := by
  have h0 : (0 : ℚ) ≤ 1 / 2 := by norm_num
  have h1 : (1 : ℚ) / 2 ≤ 1 := by norm_num
  simp only [lerp, interpolate_of_unit _ _ _ h0 h1]
  refine Pos.mk.injEq .. ▸ ?_
  constructor <;> ring

theorem timePoint_self (ct : ℚ) (s : Snapshot) : timePoint ct s s = 0 := by
  simp [timePoint]

theorem timePoint_at_target (ct : ℚ) (previous target : Snapshot)
    (h : ct = target.serverTime) : timePoint ct previous target = 0 := by
  unfold timePoint
  subst h
  simp only [sub_self]
  split <;> simp

theorem timePoint_at_previous (previous target : Snapshot)
    (h : previous.serverTime < target.serverTime) :
    timePoint previous.serverTime previous target = 1 := by
  unfold timePoint
  have hne : target.serverTime - previous.serverTime ≠ 0 := by linarith
  rw [if_neg hne, div_self hne]

theorem timePoint_bounds (ct : ℚ) (previous target : Snapshot)
    (h1 : previous.serverTime < ct) (h2 : ct < target.serverTime) :
    0 < timePoint ct previous target ∧ timePoint ct previous target < 1 := by
  unfold timePoint
  have hd : (0 : ℚ) < target.serverTime - previous.serverTime := by linarith
  have hne : target.serverTime - previous.serverTime ≠ 0 := ne_of_gt hd
  rw [if_neg hne]
  constructor
  · exact div_pos (by linarith) hd
  · rw [div_lt_one hd]
    linarith

theorem timePoint_strict_anti (ct₁ ct₂ : ℚ) (previous target : Snapshot)
    (hd : previous.serverTime < target.serverTime) (h : ct₁ < ct₂) :
    timePoint ct₂ previous target < timePoint ct₁ previous target := by
  unfold timePoint
  have hdpos : (0 : ℚ) < target.serverTime - previous.serverTime := by linarith
  have hne : target.serverTime - previous.serverTime ≠ 0 := ne_of_gt hdpos
  rw [if_neg hne, if_neg hne, div_lt_div_iff_of_pos_right hdpos]
  linarith

theorem timePoint_mid (previous target : Snapshot)
    (h : previous.serverTime < target.serverTime) :
    timePoint ((previous.serverTime + target.serverTime) / 2) previous target
      = 1 / 2 := by
  unfold timePoint
  have hne : target.serverTime - previous.serverTime ≠ 0 := by linarith
  rw [if_neg hne]
  field_simp
  ring

/-! ### Lemmas about the timeline search -/

theorem findBracket_some {ct : ℚ} :
    ∀ {u : List Snapshot} {p t : Snapshot},
      findBracket ct u = some (p, t) → p.serverTime < ct ∧ ct < t.serverTime := by
  intro u
  induction u with
  | nil => intro p t h; simp [findBracket] at h
  | cons a rest ih =>
      intro p t h
      cases rest with
      | nil => simp [findBracket] at h
      | cons b rest' =>
          rw [findBracket] at h
          by_cases hc : a.serverTime < ct ∧ ct < b.serverTime
          · rw [if_pos hc] at h
            obtain ⟨rfl, rfl⟩ : a = p ∧ b = t := by
              simpa using h
            exact hc
          · rw [if_neg hc] at h
            exact ih h

theorem findBracket_eq_none {ct : ℚ} :
    ∀ {u : List Snapshot},
      (∀ pr ∈ u.zip u.tail, ¬ (pr.1.serverTime < ct ∧ ct < pr.2.serverTime)) →
      findBracket ct u = none := by
  intro u
  induction u with
  | nil => intro _; rfl
  | cons a rest ih =>
      intro h
      cases rest with
      | nil => rfl
      | cons b rest' =>
          rw [findBracket]
          have hab : ¬ (a.serverTime < ct ∧ ct < b.serverTime) := by
            exact h (a, b) (by simp)
          rw [if_neg hab]
          apply ih
          intro pr hpr
          exact h pr (by simp [List.zip_cons_cons] at hpr ⊢; exact Or.inr hpr)

/-! ### Lemmas about the remote-player loop -/

/-- Index `i` of the remote-player loop actually runs its replay body iff
the latest snapshot has a player at `i`, both `target` and `previous` have a
player at `i`, and that player id is present in the game. -/
def replayedIndex (latestServerUpdate target previous : Snapshot)
    (positions : List (String × Pos)) (i : Nat) : Bool :=
  match latestServerUpdate.players.get? i with
  | none => false
  | some playerData =>
      (target.players.get? i).isSome && (previous.players.get? i).isSome &&
        (lookupAssoc positions playerData.id).isSome

theorem replayedIndex_congr (latestServerUpdate target previous : Snapshot)
    (m m' : List (String × Pos)) (i : Nat)
    (h : ∀ q, (lookupAssoc m q).isSome = (lookupAssoc m' q).isSome) :
    replayedIndex latestServerUpdate target previous m i
      = replayedIndex latestServerUpdate target previous m' i := by
  unfold replayedIndex
  cases latestServerUpdate.players.get? i with
  | none => rfl
  | some playerData => dsimp only; rw [h]

theorem runBullets_spec :
    ∀ (bullets : List Bullet) (st st' : PassState),
      runBullets bullets st = some st' →
      st'.positions = st.positions ∧ st'.serverGhosts = st.serverGhosts ∧
      st'.localGhosts = st.localGhosts ∧ st'.fired = st.fired ∧
      st'.spawned.length = st.spawned.length + bullets.length ∧
      (∀ pr ∈ st'.spawned, pr ∈ st.spawned ∨
        (pr.1 ∈ bullets ∧ lookupAssoc st.positions pr.1.firedBy = some pr.2)) := by
  intro bullets
  induction bullets with
  | nil =>
      intro st st' h
      obtain rfl : st = st' := by simpa [runBullets] using h
      simp
  | cons b rest ih =>
      intro st st' h
      rw [runBullets] at h
      cases hl : lookupAssoc st.positions b.firedBy with
      | none => rw [hl] at h; exact absurd h (by simp)
      | some position =>
          rw [hl] at h
          obtain ⟨h1, h2, h3, h4, h5, h6⟩ := ih _ _ h
          simp only at h1 h2 h3 h4 h5
          refine ⟨h1, h2, h3, h4, ?_, ?_⟩
          · rw [h5]; simp; omega
          · intro pr hpr
            rcases h6 pr hpr with hmem | ⟨hb, hlk⟩
            · simp only [List.mem_append, List.mem_singleton] at hmem
              rcases hmem with hmem | rfl
              · exact Or.inl hmem
              · exact Or.inr ⟨by simp, hl⟩
            · simp only at hlk
              exact Or.inr ⟨List.mem_cons_of_mem _ hb, hlk⟩

theorem runEvents_spec :
    ∀ (events : List GEvent) (st : PassState),
      runEvents events st = { st with fired := st.fired ++ events } := by
  intro events
  induction events with
  | nil => intro st; simp [runEvents]
  | cons e rest ih =>
      intro st
      rw [runEvents, ih]
      simp

/-- A loop iteration never changes the rendered position of a player whose
id is not the id at index `i` of the latest snapshot's player list. -/
theorem remotePlayerStep_lookup_other (opts : Options) (interpolation tp : ℚ)
    (latestServerUpdate target previous : Snapshot) (st st' : PassState)
    (i : Nat)
    (h : remotePlayerStep opts interpolation tp latestServerUpdate target previous st i
      = some st')
    (q : String)
    (hq : ∀ pd, latestServerUpdate.players.get? i = some pd → pd.id ≠ q) :
    lookupAssoc st'.positions q = lookupAssoc st.positions q := by
  unfold remotePlayerStep at h
  cases hg : latestServerUpdate.players.get? i with
  | none =>
      rw [hg] at h
      obtain rfl : st = st' := by simpa using h
      rfl
  | some playerData =>
      rw [hg] at h
      have hid : playerData.id ≠ q := hq playerData hg
      simp only at h
      cases ht : target.players.get? i with
      | none =>
          rw [ht] at h
          cases hp : previous.players.get? i <;>
            · rw [hp] at h
              obtain rfl : st = st' := by simpa using h
              rfl
      | some targetPlayer =>
          rw [ht] at h
          cases hp : previous.players.get? i with
          | none =>
              rw [hp] at h
              obtain rfl : st = st' := by simpa using h
              rfl
          | some previousPlayer =>
              rw [hp] at h
              cases hlk : lookupAssoc st.positions playerData.id with
              | none =>
                  rw [hlk] at h
                  obtain rfl : st = st' := by simpa using h
                  rfl
              | some playerPos =>
                  rw [hlk] at h
                  simp only at h
                  cases hrb : runBullets target.bullets
                      { st with
                        serverGhosts := setAssoc st.serverGhosts playerData.id playerData.position,
                        localGhosts := setAssoc st.localGhosts playerData.id
                          (lerp previousPlayer.position targetPlayer.position tp),
                        positions := setAssoc st.positions playerData.id
                          (if opts.clientSmoothing
                            then lerp playerPos
                              (lerp previousPlayer.position targetPlayer.position tp)
                              interpolation
                            else lerp previousPlayer.position targetPlayer.position tp) } with
                  | none => rw [hrb] at h; exact absurd h (by simp)
                  | some stb =>
                      rw [hrb] at h
                      obtain rfl : runEvents target.events stb = st' := by simpa using h
                      obtain ⟨h1, -, -, -, -, -⟩ := runBullets_spec _ _ _ hrb
                      rw [runEvents_spec]
                      simp only
                      rw [h1]
                      simp only
                      exact lookupAssoc_setAssoc_ne _ _ _ _ hid

/-- Case analysis of one loop iteration: either it is skipped (no players at
index `i` in one of the three snapshots, or the player is absent from the
game), or it runs the full body — snap the server ghost, set the local ghost
to the lerp, render the player, then replay bullets and events. -/
theorem remotePlayerStep_spec (opts : Options) (interpolation tp : ℚ)
    (latestServerUpdate target previous : Snapshot) (st st' : PassState)
    (i : Nat)
    (h : remotePlayerStep opts interpolation tp latestServerUpdate target previous st i
      = some st') :
    (st' = st ∧
      replayedIndex latestServerUpdate target previous st.positions i = false) ∨
    (∃ playerData targetPlayer previousPlayer playerPos stb,
      latestServerUpdate.players.get? i = some playerData ∧
      target.players.get? i = some targetPlayer ∧
      previous.players.get? i = some previousPlayer ∧
      lookupAssoc st.positions playerData.id = some playerPos ∧
      runBullets target.bullets
        { st with
          serverGhosts := setAssoc st.serverGhosts playerData.id playerData.position,
          localGhosts := setAssoc st.localGhosts playerData.id
            (lerp previousPlayer.position targetPlayer.position tp),
          positions := setAssoc st.positions playerData.id
            (if opts.clientSmoothing
              then lerp playerPos
                (lerp previousPlayer.position targetPlayer.position tp) interpolation
              else lerp previousPlayer.position targetPlayer.position tp) }
        = some stb ∧
      st' = runEvents target.events stb ∧
      replayedIndex latestServerUpdate target previous st.positions i = true) := by
  unfold remotePlayerStep at h
  cases hg : latestServerUpdate.players.get? i with
  | none =>
      rw [hg] at h
      refine Or.inl ⟨by simpa using h.symm, ?_⟩
      unfold replayedIndex
      rw [hg]
  | some playerData =>
      rw [hg] at h
      simp only at h
      cases ht : target.players.get? i with
      | none =>
          rw [ht] at h
          have hfalse : replayedIndex latestServerUpdate target previous st.positions i
              = false := by
            unfold replayedIndex
            rw [hg]
            dsimp only
            rw [ht]
            simp
          cases hp : previous.players.get? i <;>
            · rw [hp] at h
              exact Or.inl ⟨by simpa using h.symm, hfalse⟩
      | some targetPlayer =>
          rw [ht] at h
          cases hp : previous.players.get? i with
          | none =>
              rw [hp] at h
              refine Or.inl ⟨by simpa using h.symm, ?_⟩
              unfold replayedIndex
              rw [hg]
              dsimp only
              rw [hp]
              simp
          | some previousPlayer =>
              rw [hp] at h
              cases hlk : lookupAssoc st.positions playerData.id with
              | none =>
                  rw [hlk] at h
                  refine Or.inl ⟨by simpa using h.symm, ?_⟩
                  unfold replayedIndex
                  rw [hg]
                  dsimp only
                  rw [hlk, ht, hp]
                  simp
              | some playerPos =>
                  rw [hlk] at h
                  simp only at h
                  cases hrb : runBullets target.bullets
                      { st with
                        serverGhosts := setAssoc st.serverGhosts playerData.id playerData.position,
                        localGhosts := setAssoc st.localGhosts playerData.id
                          (lerp previousPlayer.position targetPlayer.position tp),
                        positions := setAssoc st.positions playerData.id
                          (if opts.clientSmoothing
                            then lerp playerPos
                              (lerp previousPlayer.position targetPlayer.position tp)
                              interpolation
                            else lerp previousPlayer.position targetPlayer.position tp) } with
                  | none => rw [hrb] at h; exact absurd h (by simp)
                  | some stb =>
                      rw [hrb] at h
                      refine Or.inr ⟨playerData, targetPlayer, previousPlayer, playerPos,
                        stb, rfl, rfl, rfl, hlk, hrb, by simpa using h.symm, ?_⟩
                      unfold replayedIndex
                      rw [hg]
                      dsimp only
                      rw [hlk, ht, hp]
                      simp

/-- A loop iteration does not change which player ids resolve to a
position. -/
theorem remotePlayerStep_isSome (opts : Options) (interpolation tp : ℚ)
    (latestServerUpdate target previous : Snapshot) (st st' : PassState)
    (i : Nat)
    (h : remotePlayerStep opts interpolation tp latestServerUpdate target previous st i
      = some st') (q : String) :
    (lookupAssoc st'.positions q).isSome = (lookupAssoc st.positions q).isSome := by
  rcases remotePlayerStep_spec opts interpolation tp latestServerUpdate target previous
      st st' i h with ⟨rfl, -⟩ | ⟨pd, tpl, ppl, playerPos, stb, -, -, -, hlk, hrb, rfl, -⟩
  · rfl
  · obtain ⟨h1, -, -, -, -, -⟩ := runBullets_spec _ _ _ hrb
    rw [runEvents_spec]
    simp only
    rw [h1]
    simp only
    exact lookupAssoc_setAssoc_isSome _ _ _ _ _ hlk

/-- Replay effects of one loop iteration: if the index is replayed, every
bullet and every event of the `target` snapshot is replayed once; otherwise
nothing happens. -/
theorem remotePlayerStep_counts (opts : Options) (interpolation tp : ℚ)
    (latestServerUpdate target previous : Snapshot) (st st' : PassState)
    (i : Nat)
    (h : remotePlayerStep opts interpolation tp latestServerUpdate target previous st i
      = some st') :
    st'.spawned.length = st.spawned.length +
      (if replayedIndex latestServerUpdate target previous st.positions i
        then target.bullets.length else 0) ∧
    st'.fired.length = st.fired.length +
      (if replayedIndex latestServerUpdate target previous st.positions i
        then target.events.length else 0) := by
  rcases remotePlayerStep_spec opts interpolation tp latestServerUpdate target previous
      st st' i h with ⟨rfl, hfalse⟩ |
      ⟨pd, tpl, ppl, playerPos, stb, -, -, -, -, hrb, rfl, htrue⟩
  · rw [hfalse]
    simp
  · rw [htrue]
    obtain ⟨-, -, -, h4, h5, -⟩ := runBullets_spec _ _ _ hrb
    rw [runEvents_spec]
    simp only at h4 h5 ⊢
    constructor
    · rw [h5]; simp
    · rw [List.length_append, h4]; simp

/-- Every bullet spawned by one loop iteration that was not already in the
spawn list is a bullet of the `target` snapshot, spawned at the position the
firing player has in the game at that moment. -/
theorem remotePlayerStep_spawn_origin (opts : Options) (interpolation tp : ℚ)
    (latestServerUpdate target previous : Snapshot) (st st' : PassState)
    (i : Nat)
    (h : remotePlayerStep opts interpolation tp latestServerUpdate target previous st i
      = some st') :
    ∀ pr ∈ st'.spawned, pr ∈ st.spawned ∨
      (pr.1 ∈ target.bullets ∧ lookupAssoc st'.positions pr.1.firedBy = some pr.2) := by
  rcases remotePlayerStep_spec opts interpolation tp latestServerUpdate target previous
      st st' i h with ⟨rfl, -⟩ |
      ⟨pd, tpl, ppl, playerPos, stb, -, -, -, -, hrb, rfl, -⟩
  · exact fun pr hpr => Or.inl hpr
  · intro pr hpr
    obtain ⟨h1, -, -, -, -, h6⟩ := runBullets_spec _ _ _ hrb
    rw [runEvents_spec] at hpr ⊢
    simp only at hpr ⊢
    rcases h6 pr hpr with hmem | ⟨hb, hlk⟩
    · exact Or.inl hmem
    · refine Or.inr ⟨hb, ?_⟩
      rw [h1]
      simpa using hlk

theorem runSteps_append (f : PassState → Nat → Option PassState) :
    ∀ (l₁ l₂ : List Nat) (st : PassState),
      runSteps f (l₁ ++ l₂) st =
        match runSteps f l₁ st with
        | none => none
        | some st' => runSteps f l₂ st' := by
  intro l₁
  induction l₁ with
  | nil => intro l₂ st; rfl
  | cons i rest ih =>
      intro l₂ st
      rw [List.cons_append, runSteps, runSteps]
      cases f st i with
      | none => rfl
      | some st' => exact ih l₂ st'

theorem runSteps_lookup_other (opts : Options) (interpolation tp : ℚ)
    (latestServerUpdate target previous : Snapshot) (q : String) :
    ∀ (idxs : List Nat) (st st' : PassState),
      runSteps (remotePlayerStep opts interpolation tp latestServerUpdate target previous)
        idxs st = some st' →
      (∀ j ∈ idxs, ∀ pd, latestServerUpdate.players.get? j = some pd → pd.id ≠ q) →
      lookupAssoc st'.positions q = lookupAssoc st.positions q := by
  intro idxs
  induction idxs with
  | nil =>
      intro st st' h _
      obtain rfl : st = st' := by simpa [runSteps] using h
      rfl
  | cons i rest ih =>
      intro st st' h hq
      rw [runSteps] at h
      cases hs : remotePlayerStep opts interpolation tp latestServerUpdate target previous
          st i with
      | none => rw [hs] at h; exact absurd h (by simp)
      | some st₁ =>
          rw [hs] at h
          have h₁ := remotePlayerStep_lookup_other opts interpolation tp
            latestServerUpdate target previous st st₁ i hs q
            (fun pd hpd => hq i (by simp) pd hpd)
          rw [ih st₁ st' h (fun j hj => hq j (by simp [hj])), h₁]

theorem runSteps_isSome (opts : Options) (interpolation tp : ℚ)
    (latestServerUpdate target previous : Snapshot) (q : String) :
    ∀ (idxs : List Nat) (st st' : PassState),
      runSteps (remotePlayerStep opts interpolation tp latestServerUpdate target previous)
        idxs st = some st' →
      (lookupAssoc st'.positions q).isSome = (lookupAssoc st.positions q).isSome := by
  intro idxs
  induction idxs with
  | nil =>
      intro st st' h
      obtain rfl : st = st' := by simpa [runSteps] using h
      rfl
  | cons i rest ih =>
      intro st st' h
      rw [runSteps] at h
      cases hs : remotePlayerStep opts interpolation tp latestServerUpdate target previous
          st i with
      | none => rw [hs] at h; exact absurd h (by simp)
      | some st₁ =>
          rw [hs] at h
          rw [ih st₁ st' h,
            remotePlayerStep_isSome opts interpolation tp latestServerUpdate target previous
              st st₁ i hs q]

/-- Replay effects of a whole sequence of loop iterations: each replayed
index contributes one full copy of the `target` snapshot's bullet list and
event list. -/
theorem runSteps_counts (opts : Options) (interpolation tp : ℚ)
    (latestServerUpdate target previous : Snapshot) :
    ∀ (idxs : List Nat) (st st' : PassState),
      runSteps (remotePlayerStep opts interpolation tp latestServerUpdate target previous)
        idxs st = some st' →
      st'.spawned.length = st.spawned.length +
        (idxs.countP
          (fun j => replayedIndex latestServerUpdate target previous st.positions j))
          * target.bullets.length ∧
      st'.fired.length = st.fired.length +
        (idxs.countP
          (fun j => replayedIndex latestServerUpdate target previous st.positions j))
          * target.events.length := by
  intro idxs
  induction idxs with
  | nil =>
      intro st st' h
      obtain rfl : st = st' := by simpa [runSteps] using h
      simp
  | cons i rest ih =>
      intro st st' h
      rw [runSteps] at h
      cases hs : remotePlayerStep opts interpolation tp latestServerUpdate target previous
          st i with
      | none => rw [hs] at h; exact absurd h (by simp)
      | some st₁ =>
          rw [hs] at h
          obtain ⟨ihs, ihf⟩ := ih st₁ st' h
          have hfun :
              (fun j => replayedIndex latestServerUpdate target previous st₁.positions j)
              = (fun j => replayedIndex latestServerUpdate target previous st.positions j) := by
            funext j
            exact replayedIndex_congr latestServerUpdate target previous _ _ j
              (fun q => remotePlayerStep_isSome opts interpolation tp
                latestServerUpdate target previous st st₁ i hs q)
          rw [hfun] at ihs ihf
          obtain ⟨hcs, hcf⟩ := remotePlayerStep_counts opts interpolation tp
            latestServerUpdate target previous st st₁ i hs
          rw [List.countP_cons]
          constructor
          · rw [ihs, hcs]
            by_cases hrep : replayedIndex latestServerUpdate target previous st.positions i
            · simp [hrep]; ring
            · simp [hrep]
          · rw [ihf, hcf]
            by_cases hrep : replayedIndex latestServerUpdate target previous st.positions i
            · simp [hrep]; ring
            · simp [hrep]

/-- If no bullet of the `target` snapshot is fired by one of the rendered
remote players, then every bullet spawned during the loop is spawned at the
firing player's position as it was when the loop started. -/
theorem runSteps_spawn_origin (opts : Options) (interpolation tp : ℚ)
    (latestServerUpdate target previous : Snapshot)
    (hq : ∀ b ∈ target.bullets, ∀ j pd,
      latestServerUpdate.players.get? j = some pd → pd.id ≠ b.firedBy) :
    ∀ (idxs : List Nat) (st st' : PassState),
      runSteps (remotePlayerStep opts interpolation tp latestServerUpdate target previous)
        idxs st = some st' →
      ∀ pr ∈ st'.spawned, pr ∈ st.spawned ∨
        (pr.1 ∈ target.bullets ∧
          lookupAssoc st.positions pr.1.firedBy = some pr.2) := by
  intro idxs
  induction idxs with
  | nil =>
      intro st st' h pr hpr
      obtain rfl : st = st' := by simpa [runSteps] using h
      exact Or.inl hpr
  | cons i rest ih =>
      intro st st' h pr hpr
      rw [runSteps] at h
      cases hs : remotePlayerStep opts interpolation tp latestServerUpdate target previous
          st i with
      | none => rw [hs] at h; exact absurd h (by simp)
      | some st₁ =>
          rw [hs] at h
          rcases ih st₁ st' h pr hpr with hmem | ⟨hb, hlk⟩
          · rcases remotePlayerStep_spawn_origin opts interpolation tp
                latestServerUpdate target previous st st₁ i hs pr hmem with
              hmem' | ⟨hb', hlk'⟩
            · exact Or.inl hmem'
            · refine Or.inr ⟨hb', ?_⟩
              rw [← hlk']
              exact (remotePlayerStep_lookup_other opts interpolation tp
                latestServerUpdate target previous st st₁ i hs pr.1.firedBy
                (fun pd hpd => hq pr.1 hb' i pd hpd)).symm
          · refine Or.inr ⟨hb, ?_⟩
            rw [← hlk]
            exact (remotePlayerStep_lookup_other opts interpolation tp
              latestServerUpdate target previous st st₁ i hs pr.1.firedBy
              (fun pd hpd => hq pr.1 hb i pd hpd)).symm

/-! ### Characterization of `clientPrediction` -/

/-- A falsy `ownPlayer.lastInputSeq` (absent, or the number `0`) makes
`clientPrediction` a complete no-op. -/
theorem clientPrediction_falsy (u : Snapshot) (st : PredictionState)
    (h : u.ownPlayer.lastInputSeq = none ∨ u.ownPlayer.lastInputSeq = some 0) :
    clientPrediction u st = st := by
  unfold clientPrediction
  rcases h with h | h
  · rw [h]
  · rw [h]
    rfl

/-- A truthy acknowledgement with no matching pending input only updates the
server ghost. -/
theorem clientPrediction_nomatch (u : Snapshot) (st : PredictionState) (s : Nat)
    (hseq : u.ownPlayer.lastInputSeq = some s) (hs0 : s ≠ 0)
    (hidx : List.findIdx? (fun f => f.seq = s) st.player.pending = none) :
    clientPrediction u st = { st with serverGhost := u.ownPlayer.position } := by
  unfold clientPrediction
  rw [hseq]
  dsimp only
  rw [if_neg hs0, hidx]

/-- A truthy acknowledgement matching the pending input at index `i` crops
`i + 1` entries, snaps the player and the server ghost to the server
position, and stores the index `i` through `setLastInputSeq`. -/
theorem clientPrediction_match (u : Snapshot) (st : PredictionState) (s i : Nat)
    (hseq : u.ownPlayer.lastInputSeq = some s) (hs0 : s ≠ 0)
    (hidx : List.findIdx? (fun f => f.seq = s) st.player.pending = some i) :
    clientPrediction u st =
      { player :=
          { position := u.ownPlayer.position,
            pending := st.player.pending.drop (i + 1),
            lastInputSeqStore := i },
        serverGhost := u.ownPlayer.position } := by
  unfold clientPrediction
  rw [hseq]
  dsimp only
  rw [if_neg hs0, hidx]

/-! ### Concrete fixtures used by witnesses and counterexamples -/

/-- Pending-input list with sequences `[3, 4, 5, 6]` (spec §8 scenario). -/
def samplePending : List InputFrame :=
  [⟨["left"], 1, 3⟩, ⟨["left"], 2, 4⟩, ⟨["left"], 3, 5⟩, ⟨["left"], 4, 6⟩]

/-- A snapshot acknowledging input sequence 4 with own position `(7, 2)`. -/
def sampleAck4 : Snapshot :=
  { serverTime := 10, ownPlayer := ⟨⟨7, 2⟩, some 4⟩, players := [], bullets := [],
    events := [] }

/-- A snapshot with no `lastInputSeq` and own position `(5, 5)`. -/
def sampleNoAck : Snapshot :=
  { serverTime := 10, ownPlayer := ⟨⟨5, 5⟩, none⟩, players := [], bullets := [],
    events := [] }

/-- A prediction state: player at the origin with `samplePending` pending,
server ghost at the origin. -/
def samplePredState : PredictionState :=
  ⟨⟨⟨0, 0⟩, samplePending, 0⟩, ⟨0, 0⟩⟩

/-! ### Claim C2 -/

/-- C2: with prediction enabled, when the newest snapshot's
`ownPlayer.lastInputSeq` is truthy and equals the `seq` of the pending input
first found at index `i` (scanning oldest-first), reconciliation removes
exactly `i + 1` entries from the front of the pending-input list (the
matched entry included) and sets the local player's position to the
snapshot's `ownPlayer.position`. -/
theorem claim_C2 (latestServerUpdate : Snapshot) (st : PredictionState)
    (s i : Nat)
    (hseq : latestServerUpdate.ownPlayer.lastInputSeq = some s) (hs0 : s ≠ 0)
    (hidx : List.findIdx? (fun f => f.seq = s) st.player.pending = some i) :
    (clientPrediction latestServerUpdate st).player.pending
        = st.player.pending.drop (i + 1) ∧
    (clientPrediction latestServerUpdate st).player.position
        = latestServerUpdate.ownPlayer.position := by
  rw [clientPrediction_match latestServerUpdate st s i hseq hs0 hidx]
  exact ⟨rfl, rfl⟩

/-- Witness for C2 at the spec's scenario: pending sequences `[3, 4, 5, 6]`
and `lastInputSeq = 4` (match at index 1) leave `[5, 6]` pending and the
player at the server-reported position `(7, 2)`. -/
theorem claim_C2_witness :
    (sampleAck4.ownPlayer.lastInputSeq = some 4 ∧ (4 : Nat) ≠ 0 ∧
      List.findIdx? (fun f => f.seq = 4) samplePredState.player.pending = some 1) ∧
    ((clientPrediction sampleAck4 samplePredState).player.pending
        = samplePredState.player.pending.drop 2 ∧
      (clientPrediction sampleAck4 samplePredState).player.position
        = sampleAck4.ownPlayer.position) ∧
    (clientPrediction sampleAck4 samplePredState).player.pending
        = [⟨["left"], 3, 5⟩, ⟨["left"], 4, 6⟩] ∧
    (clientPrediction sampleAck4 samplePredState).player.position = ⟨7, 2⟩ :=
  ⟨⟨by decide, by decide, by decide⟩,
    claim_C2 sampleAck4 samplePredState 4 1 (by decide) (by decide) (by decide),
    by decide, by decide⟩

/-! ### Claim C3 (corrected) -/

/-- C3 counterexample: with a falsy `lastInputSeq` the code does nothing at
all — in particular the local player's server ghost is *not* moved to the
snapshot's `ownPlayer.position`, contrary to the claim's "only the server
ghost is updated".  The ghost update sits inside `if (serverInputSeq)`. -/
theorem claim_C3_counterexample :
    clientPrediction sampleNoAck samplePredState = samplePredState ∧
    (clientPrediction sampleNoAck samplePredState).serverGhost
      ≠ sampleNoAck.ownPlayer.position := by
  decide

/-- C3 (amended): when the newest snapshot's `ownPlayer.lastInputSeq` is
falsy/absent, reconciliation is skipped and the frame is a complete no-op:
the pending-input list, the local player's position *and* the server ghost
are all left unchanged. -/
theorem claim_C3 (latestServerUpdate : Snapshot) (st : PredictionState)
    (h : latestServerUpdate.ownPlayer.lastInputSeq = none ∨
      latestServerUpdate.ownPlayer.lastInputSeq = some 0) :
    clientPrediction latestServerUpdate st = st :=
  clientPrediction_falsy latestServerUpdate st h

/-- Witness for the amended C3: a snapshot with absent `lastInputSeq` leaves
the whole prediction state untouched. -/
theorem claim_C3_witness :
    (sampleNoAck.ownPlayer.lastInputSeq = none ∨
      sampleNoAck.ownPlayer.lastInputSeq = some 0) ∧
    clientPrediction sampleNoAck samplePredState = samplePredState :=
  ⟨Or.inl (by decide), claim_C3 sampleNoAck samplePredState (Or.inl (by decide))⟩

/-! ### Claim C7 -/

/-- C7: for the snapshot at the tail of the buffer, applying the
reconciliation step twice leaves the local player at the same final position
as applying it once — the correction is a direct overwrite, and a second
application either finds no match (position untouched) or overwrites with
the same server position again. -/
theorem claim_C7 (serverUpdates : List Snapshot) (h : serverUpdates ≠ [])
    (st : PredictionState) :
    (clientPrediction (serverUpdates.getLast h)
        (clientPrediction (serverUpdates.getLast h) st)).player.position
      = (clientPrediction (serverUpdates.getLast h) st).player.position := by
  set u := serverUpdates.getLast h with hu
  cases hseq : u.ownPlayer.lastInputSeq with
  | none =>
      rw [clientPrediction_falsy u st (Or.inl hseq),
        clientPrediction_falsy u st (Or.inl hseq)]
  | some s =>
      by_cases hs0 : s = 0
      · subst hs0
        rw [clientPrediction_falsy u st (Or.inr hseq),
          clientPrediction_falsy u st (Or.inr hseq)]
      · cases hidx : List.findIdx? (fun f => f.seq = s) st.player.pending with
        | none =>
            rw [clientPrediction_nomatch u st s hseq hs0 hidx,
              clientPrediction_nomatch u
                { player := st.player, serverGhost := u.ownPlayer.position }
                s hseq hs0 hidx]
        | some i =>
            rw [clientPrediction_match u st s i hseq hs0 hidx]
            cases hidx2 : List.findIdx? (fun f => f.seq = s)
                (st.player.pending.drop (i + 1)) with
            | none =>
                rw [clientPrediction_nomatch u
                  { player :=
                      { position := u.ownPlayer.position,
                        pending := st.player.pending.drop (i + 1),
                        lastInputSeqStore := i },
                    serverGhost := u.ownPlayer.position } s hseq hs0 hidx2]
            | some i₂ =>
                rw [clientPrediction_match u
                  { player :=
                      { position := u.ownPlayer.position,
                        pending := st.player.pending.drop (i + 1),
                        lastInputSeqStore := i },
                    serverGhost := u.ownPlayer.position } s i₂ hseq hs0 hidx2]

/-- Witness for C7 at a concrete buffer and state. -/
theorem claim_C7_witness :
    ([sampleAck4] ≠ ([] : List Snapshot)) ∧
    (clientPrediction ([sampleAck4].getLast (by simp))
        (clientPrediction ([sampleAck4].getLast (by simp)) samplePredState)).player.position
      = (clientPrediction ([sampleAck4].getLast (by simp)) samplePredState).player.position :=
  ⟨by simp, claim_C7 [sampleAck4] (by simp) samplePredState⟩

/-! ### Claim C9 -/

/-- C9: after a successful reconciliation match at pending-list index `i`,
the value stored through `setLastInputSeq` is the list index `i` itself, not
the acknowledged sequence number `s` carried by the matched input frame. -/
theorem claim_C9 (latestServerUpdate : Snapshot) (st : PredictionState)
    (s i : Nat)
    (hseq : latestServerUpdate.ownPlayer.lastInputSeq = some s) (hs0 : s ≠ 0)
    (hidx : List.findIdx? (fun f => f.seq = s) st.player.pending = some i) :
    (clientPrediction latestServerUpdate st).player.lastInputSeqStore = i ∧
    (i ≠ s → (clientPrediction latestServerUpdate st).player.lastInputSeqStore ≠ s) := by
  rw [clientPrediction_match latestServerUpdate st s i hseq hs0 hidx]
  exact ⟨rfl, fun hne => hne⟩

/-- Witness for C9: with pending sequences `[3, 4, 5, 6]` and
`lastInputSeq = 4`, the stored value is the index `1`, not the sequence
number `4`. -/
theorem claim_C9_witness :
    (sampleAck4.ownPlayer.lastInputSeq = some 4 ∧ (4 : Nat) ≠ 0 ∧
      List.findIdx? (fun f => f.seq = 4) samplePredState.player.pending = some 1) ∧
    ((clientPrediction sampleAck4 samplePredState).player.lastInputSeqStore = 1 ∧
      ((1 : Nat) ≠ 4 →
        (clientPrediction sampleAck4 samplePredState).player.lastInputSeqStore ≠ 4)) :=
  ⟨⟨by decide, by decide, by decide⟩,
    claim_C9 sampleAck4 samplePredState 4 1 (by decide) (by decide) (by decide)⟩

/-! ### Claim C8 -/

/-- C8: for a capture of a non-empty input-code list with a local player set
and a network attached, the transmitted message is exactly
`'i.' ++ codes joined by '-' ++ '.' ++ localTime with '.' replaced by '-'
++ '.' ++ newly assigned sequence number`, and the identical frame
(inputs, time, seq) is pushed onto the pending-input list. -/
theorem claim_C8 (input : List String) (time : ℚ) (timeStr : String)
    (inputSeq : Nat) (h : input ≠ []) :
    (updateInput input true true time timeStr inputSeq).message
        = some ("i." ++ String.intercalate "-" input ++ "."
          ++ jsReplaceDot timeStr ++ "." ++ toString (inputSeq + 1)) ∧
    (updateInput input true true time timeStr inputSeq).pushed
        = some ⟨input, time, inputSeq + 1⟩ ∧
    (updateInput input true true time timeStr inputSeq).inputSeq = inputSeq + 1 := by
  have hlen : 0 < input.length := List.length_pos.mpr h
  simp [updateInput, hlen]

/-- Witness for C8 at the spec's worked example: codes `up`, `left`, local
time `12.345`, previous sequence number 6 produce the wire string
`i.up-left.12-345.7`. -/
theorem claim_C8_witness :
    ((["up", "left"] : List String) ≠ []) ∧
    ((updateInput ["up", "left"] true true (2469 / 200) "12.345" 6).message
        = some ("i." ++ String.intercalate "-" ["up", "left"] ++ "."
          ++ jsReplaceDot "12.345" ++ "." ++ toString (6 + 1)) ∧
      (updateInput ["up", "left"] true true (2469 / 200) "12.345" 6).pushed
        = some ⟨["up", "left"], 2469 / 200, 6 + 1⟩ ∧
      (updateInput ["up", "left"] true true (2469 / 200) "12.345" 6).inputSeq
        = 6 + 1) ∧
    (updateInput ["up", "left"] true true (2469 / 200) "12.345" 6).message
        = some "i.up-left.12-345.7" :=
  ⟨by decide, claim_C8 ["up", "left"] (2469 / 200) "12.345" 6 (by decide), by decide⟩

/-! ### Claim C10 -/

theorem findIdx?_eq_none_of_all {p : InputFrame → Bool} :
    ∀ (l : List InputFrame) (i : Nat), (∀ f ∈ l, p f = false) →
      List.findIdx? p l i = none := by
  intro l
  induction l with
  | nil => intro i _; rfl
  | cons a rest ih =>
      intro i h
      rw [List.findIdx?_cons, h a (by simp), if_neg (by simp)]
      exact ih (i + 1) (fun f hf => h f (by simp [hf]))

/-- Invariant of the input sequencer: the pending frames carry exactly the
sequence numbers `1, 2, …, inputSeq` in order. -/
theorem captureStep_invariant (st : SequencerState) (op : CaptureOp)
    (h : st.pending.map (fun f => f.seq) = List.range' 1 st.inputSeq) :
    (captureStep st op).pending.map (fun f => f.seq)
      = List.range' 1 (captureStep st op).inputSeq := by
  unfold captureStep updateInput
  by_cases hc : 0 < op.input.length ∧ op.hasLocalPlayer
  · rw [if_pos hc]
    dsimp only
    rw [List.map_append, h]
    have : List.range' 1 (st.inputSeq + 1)
        = List.range' 1 st.inputSeq ++ [1 + 1 * st.inputSeq] :=
      List.range'_concat 1 st.inputSeq
    rw [this]
    simp [Nat.add_comm]
  · rw [if_neg hc]
    exact h

theorem runCaptures_invariant :
    ∀ (ops : List CaptureOp) (st : SequencerState),
      st.pending.map (fun f => f.seq) = List.range' 1 st.inputSeq →
      (runCaptures st ops).pending.map (fun f => f.seq)
        = List.range' 1 (runCaptures st ops).inputSeq := by
  intro ops
  induction ops with
  | nil => intro st h; exact h
  | cons op rest ih =>
      intro st h
      rw [runCaptures]
      exact ih (captureStep st op) (captureStep_invariant st op h)

/-- C10: starting from `inputSeq = 0`, the sequence counter is incremented
only on a non-empty capture with a local player set; the captured frames
carry exactly the consecutive sequence numbers `1, 2, 3, …` (so every frame
has `seq ≥ 1`, seq `0` is never assigned, and a server-reported
`lastInputSeq` of `0` can never match a pending input). -/
theorem claim_C10 (ops : List CaptureOp) :
    (runCaptures initialSequencer ops).pending.map (fun f => f.seq)
        = List.range' 1 (runCaptures initialSequencer ops).inputSeq ∧
    (∀ f ∈ (runCaptures initialSequencer ops).pending, 1 ≤ f.seq) ∧
    List.findIdx? (fun f => f.seq = 0)
        (runCaptures initialSequencer ops).pending = none := by
  have hinv := runCaptures_invariant ops initialSequencer (by rfl)
  have hmem : ∀ f ∈ (runCaptures initialSequencer ops).pending, 1 ≤ f.seq := by
    intro f hf
    have : f.seq ∈ (runCaptures initialSequencer ops).pending.map
        (fun f => f.seq) := List.mem_map_of_mem _ hf
    rw [hinv] at this
    exact (List.mem_range'_1.mp this).1
  refine ⟨hinv, hmem, ?_⟩
  apply findIdx?_eq_none_of_all
  intro f hf
  have := hmem f hf
  simp only [decide_eq_false_iff_not]
  omega

/-! ### Claim C5 -/

/-- C5: in non-naive mode, if the buffer respects the bound
`60 * networkBufferSize` before a push, it still respects it after the push;
when the capacity policy triggers (the appended length reaches the bound),
exactly one element — the oldest, at the front — is evicted, and otherwise
the buffer is only appended to. -/
theorem claim_C5 (serverUpdates : List Snapshot) (data : Snapshot)
    (networkBufferSize : ℚ)
    (h : (serverUpdates.length : ℚ) ≤ 60 * networkBufferSize) :
    ((onServerUpdatePush serverUpdates data networkBufferSize).length : ℚ)
        ≤ 60 * networkBufferSize ∧
    ((serverUpdates.length : ℚ) + 1 ≥ 60 * networkBufferSize →
      onServerUpdatePush serverUpdates data networkBufferSize
        = (serverUpdates ++ [data]).drop 1) ∧
    (¬ ((serverUpdates.length : ℚ) + 1 ≥ 60 * networkBufferSize) →
      onServerUpdatePush serverUpdates data networkBufferSize
        = serverUpdates ++ [data]) := by
  unfold onServerUpdatePush
  have hlen : (((serverUpdates ++ [data]).length : ℕ) : ℚ)
      = (serverUpdates.length : ℚ) + 1 := by
    simp
  by_cases hc : (((serverUpdates ++ [data]).length : ℕ) : ℚ) ≥ 60 * networkBufferSize
  · rw [if_pos hc]
    refine ⟨?_, fun _ => rfl, fun hn => absurd (by rw [← hlen]; exact hc) hn⟩
    have hd : ((serverUpdates ++ [data]).drop 1).length = serverUpdates.length := by
      rw [List.length_drop, List.length_append]
      simp
    rw [hd]
    exact h
  · rw [if_neg hc]
    refine ⟨?_, fun hy => absurd (by rw [hlen]; exact hy) hc, fun _ => rfl⟩
    rw [hlen] at hc
    rw [hlen]
    linarith [lt_of_not_ge hc]

/-- Witness for C5: a two-snapshot buffer with
`networkBufferSize = 1/20` (bound `3`) accepts a push without eviction only
while below the bound; here the appended length reaches `3`, so the front
element is evicted and the size stays within the bound. -/
theorem claim_C5_witness :
    (((([sampleAck4, sampleNoAck] : List Snapshot).length : ℚ))
        ≤ 60 * (1 / 20)) ∧
    (((onServerUpdatePush [sampleAck4, sampleNoAck] sampleNoAck (1 / 20)).length : ℚ)
        ≤ 60 * (1 / 20) ∧
      ((([sampleAck4, sampleNoAck] : List Snapshot).length : ℚ) + 1 ≥ 60 * (1 / 20) →
        onServerUpdatePush [sampleAck4, sampleNoAck] sampleNoAck (1 / 20)
          = ([sampleAck4, sampleNoAck] ++ [sampleNoAck]).drop 1) ∧
      (¬ ((([sampleAck4, sampleNoAck] : List Snapshot).length : ℚ) + 1 ≥ 60 * (1 / 20)) →
        onServerUpdatePush [sampleAck4, sampleNoAck] sampleNoAck (1 / 20)
          = [sampleAck4, sampleNoAck] ++ [sampleNoAck])) ∧
    onServerUpdatePush [sampleAck4, sampleNoAck] sampleNoAck (1 / 20)
        = [sampleNoAck, sampleNoAck] :=
  ⟨by norm_num,
    claim_C5 [sampleAck4, sampleNoAck] sampleNoAck (1 / 20) (by norm_num),
    by norm_num [onServerUpdatePush]⟩

/-! ### Claim C6 -/

/-- C6: whenever the buffer is non-empty but no adjacent pair of snapshots
brackets the render time (before the oldest, after the newest, single
element, or exact hits), the fallback uses the oldest buffered snapshot as
both `previous` and `target`, and the guarded blend factor resolves to `0`
— the zero-width bracket's division is caught by the `NaN`/`Infinity`
guard. -/
theorem claim_C6 (clientTime : ℚ) (serverUpdates : List Snapshot)
    (hne : serverUpdates ≠ [])
    (hnb : ∀ pr ∈ serverUpdates.zip serverUpdates.tail,
      ¬ (pr.1.serverTime < clientTime ∧ clientTime < pr.2.serverTime)) :
    selectPair clientTime serverUpdates
        = (serverUpdates.head hne, serverUpdates.head hne) ∧
    timePoint clientTime (serverUpdates.head hne) (serverUpdates.head hne) = 0 := by
  refine ⟨?_, timePoint_self _ _⟩
  unfold selectPair
  rw [findBracket_eq_none hnb]
  cases serverUpdates with
  | nil => exact absurd rfl hne
  | cons a rest => rfl

/-- Witness for C6: a single buffered snapshot with the render time past it
falls back to `(oldest, oldest)` and blend `0`. -/
theorem claim_C6_witness :
    (([sampleAck4] : List Snapshot) ≠ []) ∧
    (∀ pr ∈ ([sampleAck4] : List Snapshot).zip ([sampleAck4] : List Snapshot).tail,
      ¬ (pr.1.serverTime < 12 ∧ (12 : ℚ) < pr.2.serverTime)) ∧
    (selectPair 12 [sampleAck4]
        = ([sampleAck4].head (by simp), [sampleAck4].head (by simp)) ∧
      timePoint 12 ([sampleAck4].head (by simp)) ([sampleAck4].head (by simp)) = 0) :=
  ⟨by simp, by simp, claim_C6 12 [sampleAck4] (by simp) (by simp)⟩

/-! ### Index bookkeeping for the remote-player loop -/

theorem range_split (i n : Nat) (h : i < n) :
    List.range n = List.range i ++ i :: List.range' (i + 1) (n - i - 1) := by
  have h2 := List.range'_append 0 i (n - i) 1
  have h3 : n - i + i = n := by omega
  have h4 : 0 + 1 * i = i := by omega
  rw [h3, h4] at h2
  rw [List.range_eq_range', List.range_eq_range', ← h2]
  congr 1
  have h5 : n - i = (n - i - 1) + 1 := by omega
  rw [h5, List.range'_succ]
  simp

/-- With pairwise-distinct player ids, the player found at a different index
carries a different id. -/
theorem nodup_get?_id_ne (l : List PlayerSnap)
    (hnd : (l.map PlayerSnap.id).Nodup) (i j : Nat) (pd pd' : PlayerSnap)
    (hi : l.get? i = some pd) (hj : l.get? j = some pd') (hij : j ≠ i) :
    pd'.id ≠ pd.id := by
  intro heq
  apply hij
  have hjl : j < l.length := (List.get?_eq_some.mp hj).1
  have hmap : (l.map PlayerSnap.id).get? j = (l.map PlayerSnap.id).get? i := by
    rw [List.get?_map, List.get?_map, hi, hj]
    simp [heq]
  exact List.get?_inj (by simpa using hjl) hnd hmap

/-! ### Claim C1 (corrected) -/

/-- The blend factor described by the claim's boundary conditions: a factor
that makes `lerp previous target` equal *previous's* position as the render
time reaches `previous.serverTime` and *target's* position as it reaches
`target.serverTime`, i.e. the normalized distance from `previous`.  This
definition follows the claim's words, for comparison with the code's
`timePoint`, which is `1` minus this (the normalized distance from
`target`). -/
def claimedBlend (clientTime : ℚ) (previous target : Snapshot) : ℚ :=
  (clientTime - previous.serverTime) / (target.serverTime - previous.serverTime)

/-- Snapshot at server time 10 with the remote player `p2` reported at
`(0, 0)`. -/
def sampleCEPrev : Snapshot :=
  { serverTime := 10, ownPlayer := ⟨⟨0, 0⟩, none⟩,
    players := [⟨"p2", ⟨0, 0⟩⟩], bullets := [], events := [] }

/-- Snapshot at server time 20 with the remote player `p2` reported at
`(4, 0)`. -/
def sampleCETarg : Snapshot :=
  { serverTime := 20, ownPlayer := ⟨⟨0, 0⟩, none⟩,
    players := [⟨"p2", ⟨4, 0⟩⟩], bullets := [], events := [] }

/-- Game state before the interpolation pass for the two snapshots above. -/
def sampleCEState : PassState :=
  ⟨[("p2", ⟨9, 9⟩)], [("p2", ⟨0, 0⟩)], [("p2", ⟨0, 0⟩)], [], []⟩

/-- C1 counterexample: snapshots at server times 10 and 20 with `p2`
reported at `(0, 0)` then `(4, 0)`, render time 12 — only a fifth of the way
from `previous` to `target`.  The claim's boundary conditions demand the
rendered position `(4/5, 0)` (still close to previous's position), but the
code computes blend `= (20 − 12)/(20 − 10) = 4/5` — the distance from
*target* — and renders `(16/5, 0)`, close to *target's* position: the
direction of the interpolation is inverted. -/
theorem claim_C1_counterexample :
    findBracket 12 [sampleCEPrev, sampleCETarg] = some (sampleCEPrev, sampleCETarg) ∧
    timePoint 12 sampleCEPrev sampleCETarg = 4 / 5 ∧
    (remoteLoop ⟨false, true, false⟩ 0 (timePoint 12 sampleCEPrev sampleCETarg)
        sampleCETarg sampleCETarg sampleCEPrev sampleCEState).map
        (fun st => lookupAssoc st.positions "p2")
      = some (some ⟨16 / 5, 0⟩) ∧
    claimedBlend 12 sampleCEPrev sampleCETarg = 1 / 5 ∧
    lerp ⟨0, 0⟩ ⟨4, 0⟩ (claimedBlend 12 sampleCEPrev sampleCETarg) = ⟨4 / 5, 0⟩ ∧
    (⟨16 / 5, 0⟩ : Pos) ≠ ⟨4 / 5, 0⟩ := by
  refine ⟨by norm_num [findBracket, sampleCEPrev, sampleCETarg], ?_, ?_, ?_, ?_, by
    norm_num [Pos.mk.injEq]⟩
  · norm_num [timePoint, sampleCEPrev, sampleCETarg]
  · norm_num [remoteLoop, runSteps, remotePlayerStep, runBullets, runEvents,
      lookupAssoc, setAssoc, sampleCEPrev, sampleCETarg, sampleCEState, lerp,
      interpolate, timePoint, List.range_succ]
  · norm_num [claimedBlend, sampleCEPrev, sampleCETarg]
  · norm_num [lerp, interpolate, claimedBlend, sampleCEPrev, sampleCETarg,
      Pos.mk.injEq]

/-- C1 (amended): for the bracketing pair found by the timeline search and a
render time strictly between its server times, with `clientSmoothing`
disabled, the blend factor `timePoint` lies in `[0, 1]` and the rendered
remote-player position after the loop is
`lerp(previous.position, target.position, timePoint)`; but `timePoint`
measures the normalized distance from *target*, so the rendered position
equals *target's* reported position as the render time reaches
`previous.serverTime` and *previous's* reported position as it reaches
`target.serverTime`, moving monotonically between them (the direction along
the timeline is inverted relative to the claim); at the exact midpoint the
blend is `1/2` and the rendered position is the exact midpoint of the two
reported positions. -/
theorem claim_C1 (opts : Options) (interpolation clientTime : ℚ)
    (serverUpdates : List Snapshot)
    (previous target latestServerUpdate : Snapshot)
    (st st' : PassState) (i : Nat)
    (playerData targetPlayer previousPlayer : PlayerSnap) (playerPos : Pos)
    (hb : findBracket clientTime serverUpdates = some (previous, target))
    (_hlast : serverUpdates.getLast? = some latestServerUpdate)
    (hsm : opts.clientSmoothing = false)
    (hlat : latestServerUpdate.players.get? i = some playerData)
    (ht : target.players.get? i = some targetPlayer)
    (hp : previous.players.get? i = some previousPlayer)
    (hpos : lookupAssoc st.positions playerData.id = some playerPos)
    (hnd : (latestServerUpdate.players.map PlayerSnap.id).Nodup)
    (hrun : remoteLoop opts interpolation (timePoint clientTime previous target)
      latestServerUpdate target previous st = some st') :
    (0 ≤ timePoint clientTime previous target ∧
      timePoint clientTime previous target ≤ 1) ∧
    lookupAssoc st'.positions playerData.id
        = some (lerp previousPlayer.position targetPlayer.position
            (timePoint clientTime previous target)) ∧
    lerp previousPlayer.position targetPlayer.position
        (timePoint previous.serverTime previous target) = targetPlayer.position ∧
    lerp previousPlayer.position targetPlayer.position
        (timePoint target.serverTime previous target) = previousPlayer.position ∧
    (clientTime = (previous.serverTime + target.serverTime) / 2 →
      timePoint clientTime previous target = 1 / 2 ∧
      lerp previousPlayer.position targetPlayer.position
          (timePoint clientTime previous target)
        = ⟨(previousPlayer.position.x + targetPlayer.position.x) / 2,
            (previousPlayer.position.y + targetPlayer.position.y) / 2⟩) ∧
    (∀ ct₁ ct₂ : ℚ, ct₁ < ct₂ →
      timePoint ct₂ previous target < timePoint ct₁ previous target) := by
  obtain ⟨hlt1, hlt2⟩ := findBracket_some hb
  have hd : previous.serverTime < target.serverTime := hlt1.trans hlt2
  obtain ⟨htp0, htp1⟩ := timePoint_bounds clientTime previous target hlt1 hlt2
  refine ⟨⟨le_of_lt htp0, le_of_lt htp1⟩, ?_, ?_, ?_, ?_, ?_⟩
  · -- the rendered position of the tracked remote player after the loop
    have hilen : i < latestServerUpdate.players.length := by
      by_contra hno
      rw [List.get?_eq_none.mpr (by omega)] at hlat
      exact absurd hlat (by simp)
    unfold remoteLoop at hrun
    rw [range_split i _ hilen, runSteps_append] at hrun
    cases hA : runSteps
        (remotePlayerStep opts interpolation (timePoint clientTime previous target)
          latestServerUpdate target previous)
        (List.range i) st with
    | none => rw [hA] at hrun; exact absurd hrun (by simp)
    | some stA =>
        rw [hA] at hrun
        replace hrun : runSteps
            (remotePlayerStep opts interpolation (timePoint clientTime previous target)
              latestServerUpdate target previous)
            (i :: List.range' (i + 1) (latestServerUpdate.players.length - i - 1)) stA
            = some st' := hrun
        rw [runSteps] at hrun
        cases hB : remotePlayerStep opts interpolation
            (timePoint clientTime previous target)
            latestServerUpdate target previous stA i with
        | none => rw [hB] at hrun; exact absurd hrun (by simp)
        | some stB =>
            rw [hB] at hrun
            have hposA : lookupAssoc stA.positions playerData.id = some playerPos := by
              rw [runSteps_lookup_other opts interpolation
                (timePoint clientTime previous target) latestServerUpdate target previous
                playerData.id (List.range i) st stA hA ?_]
              · exact hpos
              · intro j hj pd hpd
                exact nodup_get?_id_ne latestServerUpdate.players hnd i j
                  playerData pd hlat hpd (by have := List.mem_range.mp hj; omega)
            rcases remotePlayerStep_spec opts interpolation
                (timePoint clientTime previous target) latestServerUpdate target previous
                stA stB i hB with ⟨rfl, hfalse⟩ |
                ⟨pd', tpl', ppl', pos', stb, hg', ht', hp', hlk', hrb', hB', -⟩
            · exfalso
              unfold replayedIndex at hfalse
              rw [hlat] at hfalse
              dsimp only at hfalse
              rw [ht, hp, hposA] at hfalse
              simp at hfalse
            · obtain rfl : pd' = playerData := by
                rw [hlat] at hg'
                exact (Option.some.inj hg').symm
              obtain rfl : tpl' = targetPlayer := by
                rw [ht] at ht'
                exact (Option.some.inj ht').symm
              obtain rfl : ppl' = previousPlayer := by
                rw [hp] at hp'
                exact (Option.some.inj hp').symm
              obtain rfl : pos' = playerPos := by
                rw [hposA] at hlk'
                exact (Option.some.inj hlk').symm
              have hposB : lookupAssoc stB.positions pd'.id
                  = some (lerp ppl'.position tpl'.position
                    (timePoint clientTime previous target)) := by
                rw [hB', runEvents_spec]
                obtain ⟨hpos1, -, -, -, -, -⟩ := runBullets_spec _ _ _ hrb'
                dsimp only
                rw [hpos1]
                dsimp only
                rw [hsm]
                simp [lookupAssoc_setAssoc_same]
              rw [runSteps_lookup_other opts interpolation
                (timePoint clientTime previous target) latestServerUpdate target previous
                pd'.id (List.range' (i + 1)
                  (latestServerUpdate.players.length - i - 1)) stB st' hrun ?_]
              · exact hposB
              · intro j hj pd hpd
                exact nodup_get?_id_ne latestServerUpdate.players hnd i j
                  pd' pd hlat hpd
                  (by have := (List.mem_range'_1.mp hj).1; omega)
  · rw [timePoint_at_previous previous target hd, lerp_one]
  · rw [timePoint_at_target target.serverTime previous target rfl, lerp_zero]
  · intro hmid
    rw [hmid, timePoint_mid previous target hd]
    exact ⟨rfl, lerp_half _ _⟩
  · intro ct₁ ct₂ hlt
    exact timePoint_strict_anti ct₁ ct₂ previous target hd hlt

/-- Snapshot at server time 10 with `p2` reported at `(1, 1)` (spec §8
midpoint scenario). -/
def sampleMidPrev : Snapshot :=
  { serverTime := 10, ownPlayer := ⟨⟨0, 0⟩, none⟩,
    players := [⟨"p2", ⟨1, 1⟩⟩], bullets := [], events := [] }

/-- Snapshot at server time 11 with `p2` reported at `(3, 5)`. -/
def sampleMidTarg : Snapshot :=
  { serverTime := 11, ownPlayer := ⟨⟨0, 0⟩, none⟩,
    players := [⟨"p2", ⟨3, 5⟩⟩], bullets := [], events := [] }

/-- Game state before the midpoint interpolation pass. -/
def sampleMidState : PassState :=
  ⟨[("p2", ⟨0, 0⟩)], [("p2", ⟨0, 0⟩)], [("p2", ⟨0, 0⟩)], [], []⟩

/-- Pass state after the midpoint interpolation pass: `p2` rendered at the
exact midpoint `(2, 3)` of the two reported positions. -/
def sampleMidResult : PassState :=
  ⟨[("p2", ⟨2, 3⟩)], [("p2", ⟨3, 5⟩)], [("p2", ⟨2, 3⟩)], [], []⟩

/-- Witness for the amended C1 at the spec's midpoint scenario: snapshots at
server times 10 and 11, render time `10.5`, blend `1/2`, rendered remote
position the exact midpoint `(2, 3)` of `(1, 1)` and `(3, 5)`. -/
theorem claim_C1_witness :
    (findBracket (21 / 2) [sampleMidPrev, sampleMidTarg]
        = some (sampleMidPrev, sampleMidTarg) ∧
      ([sampleMidPrev, sampleMidTarg] : List Snapshot).getLast? = some sampleMidTarg ∧
      (⟨false, true, false⟩ : Options).clientSmoothing = false ∧
      sampleMidTarg.players.get? 0 = some ⟨"p2", ⟨3, 5⟩⟩ ∧
      sampleMidTarg.players.get? 0 = some ⟨"p2", ⟨3, 5⟩⟩ ∧
      sampleMidPrev.players.get? 0 = some ⟨"p2", ⟨1, 1⟩⟩ ∧
      lookupAssoc sampleMidState.positions (PlayerSnap.id ⟨"p2", ⟨3, 5⟩⟩)
        = some ⟨0, 0⟩ ∧
      (sampleMidTarg.players.map PlayerSnap.id).Nodup ∧
      remoteLoop ⟨false, true, false⟩ 0
          (timePoint (21 / 2) sampleMidPrev sampleMidTarg)
          sampleMidTarg sampleMidTarg sampleMidPrev sampleMidState
        = some sampleMidResult) ∧
    ((0 ≤ timePoint (21 / 2) sampleMidPrev sampleMidTarg ∧
        timePoint (21 / 2) sampleMidPrev sampleMidTarg ≤ 1) ∧
      lookupAssoc sampleMidResult.positions (PlayerSnap.id ⟨"p2", ⟨3, 5⟩⟩)
          = some (lerp (⟨1, 1⟩ : Pos) (⟨3, 5⟩ : Pos)
              (timePoint (21 / 2) sampleMidPrev sampleMidTarg)) ∧
      lerp (⟨1, 1⟩ : Pos) (⟨3, 5⟩ : Pos)
          (timePoint sampleMidPrev.serverTime sampleMidPrev sampleMidTarg)
        = (⟨3, 5⟩ : Pos) ∧
      lerp (⟨1, 1⟩ : Pos) (⟨3, 5⟩ : Pos)
          (timePoint sampleMidTarg.serverTime sampleMidPrev sampleMidTarg)
        = (⟨1, 1⟩ : Pos) ∧
      ((21 / 2 : ℚ) = (sampleMidPrev.serverTime + sampleMidTarg.serverTime) / 2 →
        timePoint (21 / 2) sampleMidPrev sampleMidTarg = 1 / 2 ∧
        lerp (⟨1, 1⟩ : Pos) (⟨3, 5⟩ : Pos)
            (timePoint (21 / 2) sampleMidPrev sampleMidTarg)
          = ⟨(1 + 3) / 2, (1 + 5) / 2⟩) ∧
      (∀ ct₁ ct₂ : ℚ, ct₁ < ct₂ →
        timePoint ct₂ sampleMidPrev sampleMidTarg
          < timePoint ct₁ sampleMidPrev sampleMidTarg)) ∧
    lookupAssoc sampleMidResult.positions "p2" = some ⟨2, 3⟩ ∧
    timePoint (21 / 2) sampleMidPrev sampleMidTarg = 1 / 2 :=
  ⟨⟨by norm_num [findBracket, sampleMidPrev, sampleMidTarg], by decide, rfl,
      by decide, by decide, by decide, by decide, by decide, by
      norm_num [remoteLoop, runSteps, remotePlayerStep, runBullets, runEvents,
        lookupAssoc, setAssoc, sampleMidPrev, sampleMidTarg, sampleMidState,
        sampleMidResult, lerp, interpolate, timePoint, List.range_succ]⟩,
    claim_C1 ⟨false, true, false⟩ 0 (21 / 2) [sampleMidPrev, sampleMidTarg]
      sampleMidPrev sampleMidTarg sampleMidTarg sampleMidState sampleMidResult 0
      ⟨"p2", ⟨3, 5⟩⟩ ⟨"p2", ⟨3, 5⟩⟩ ⟨"p2", ⟨1, 1⟩⟩ ⟨0, 0⟩
      (by norm_num [findBracket, sampleMidPrev, sampleMidTarg]) (by decide) rfl
      (by decide) (by decide) (by decide) (by decide) (by decide)
      (by norm_num [remoteLoop, runSteps, remotePlayerStep, runBullets, runEvents,
        lookupAssoc, setAssoc, sampleMidPrev, sampleMidTarg, sampleMidState,
        sampleMidResult, lerp, interpolate, timePoint, List.range_succ]),
    by decide, by norm_num [timePoint, sampleMidPrev, sampleMidTarg]⟩

/-! ### Claim C4 (corrected) -/

/-- Snapshot at server time 10 with two remote players `a` and `b`. -/
def sampleTwoPrev : Snapshot :=
  { serverTime := 10, ownPlayer := ⟨⟨0, 0⟩, none⟩,
    players := [⟨"a", ⟨0, 0⟩⟩, ⟨"b", ⟨1, 1⟩⟩], bullets := [], events := [] }

/-- Snapshot at server time 20 with the same two remote players, one bullet
and one event, both fired by the (non-rendered) player `L`. -/
def sampleTwoTarg : Snapshot :=
  { serverTime := 20, ownPlayer := ⟨⟨0, 0⟩, none⟩,
    players := [⟨"a", ⟨2, 0⟩⟩, ⟨"b", ⟨3, 1⟩⟩],
    bullets := [⟨"L", 9, 9⟩], events := [⟨"e1", "fire", "L"⟩] }

/-- Game state with players `a`, `b` and the firing player `L` at `(5, 5)`,
before the interpolation pass. -/
def sampleTwoState : PassState :=
  ⟨[("a", ⟨0, 0⟩), ("b", ⟨1, 1⟩), ("L", ⟨5, 5⟩)], [], [], [], []⟩

/-- Pass state after the two-player interpolation pass at blend `1/2`: the
single bullet is spawned twice and the single event fired twice — once per
matched remote player. -/
def sampleTwoResult : PassState :=
  ⟨[("a", ⟨1, 0⟩), ("b", ⟨2, 1⟩), ("L", ⟨5, 5⟩)],
    [("a", ⟨2, 0⟩), ("b", ⟨3, 1⟩)],
    [("a", ⟨1, 0⟩), ("b", ⟨2, 1⟩)],
    [(⟨"L", 9, 9⟩, ⟨5, 5⟩), (⟨"L", 9, 9⟩, ⟨5, 5⟩)],
    [⟨"e1", "fire", "L"⟩, ⟨"e1", "fire", "L"⟩]⟩

/-- C4 counterexample: the bullet/event replay loops sit *inside* the
per-remote-player loop, so with two matched remote players the single
bullet attached to `target` is spawned twice and the single event fired
twice during one interpolation pass — not exactly once as the claim
states. -/
theorem claim_C4_counterexample :
    (remoteLoop ⟨false, true, false⟩ 0 (1 / 2) sampleTwoTarg sampleTwoTarg
        sampleTwoPrev sampleTwoState).map
        (fun st => (st.spawned.length, st.fired.length))
      = some (2, 2) ∧
    sampleTwoTarg.bullets.length = 1 ∧ sampleTwoTarg.events.length = 1 ∧
    (some ((2 : Nat), (2 : Nat)) ≠ some ((1 : Nat), (1 : Nat))) := by
  refine ⟨?_, by decide, by decide, by decide⟩
  norm_num [remoteLoop, runSteps, remotePlayerStep, runBullets, runEvents,
    lookupAssoc, setAssoc, sampleTwoPrev, sampleTwoTarg, sampleTwoState, lerp,
    interpolate, List.range_succ]; decide

/-- C4 (amended): during one interpolation pass, each bullet and each event
attached to the `target` snapshot is replayed once *per remote player*
matched at the same index in `previous` and `target` and present in the
game (`k` replays each, where `k` counts the replayed indices), not exactly
once; each bullet is spawned at the firing player's current position in the
game — when the firing players are not themselves rendered remote players,
that is exactly their position at the start of the pass — rather than at
the historical position carried by the bullet. -/
theorem claim_C4 (opts : Options) (interpolation tp : ℚ)
    (latestServerUpdate target previous : Snapshot) (st st' : PassState)
    (hrun : remoteLoop opts interpolation tp latestServerUpdate target previous st
      = some st')
    (hsp : st.spawned = []) (hfd : st.fired = []) :
    st'.spawned.length =
      ((List.range latestServerUpdate.players.length).countP
        (fun j => replayedIndex latestServerUpdate target previous st.positions j))
        * target.bullets.length ∧
    st'.fired.length =
      ((List.range latestServerUpdate.players.length).countP
        (fun j => replayedIndex latestServerUpdate target previous st.positions j))
        * target.events.length ∧
    ((∀ b ∈ target.bullets, ∀ j pd,
        latestServerUpdate.players.get? j = some pd → pd.id ≠ b.firedBy) →
      ∀ pr ∈ st'.spawned, pr.1 ∈ target.bullets ∧
        lookupAssoc st.positions pr.1.firedBy = some pr.2) := by
  obtain ⟨hcs, hcf⟩ := runSteps_counts opts interpolation tp latestServerUpdate
    target previous (List.range latestServerUpdate.players.length) st st' hrun
  rw [hsp] at hcs
  rw [hfd] at hcf
  refine ⟨by simpa using hcs, by simpa using hcf, ?_⟩
  intro hq pr hpr
  rcases runSteps_spawn_origin opts interpolation tp latestServerUpdate target
      previous hq (List.range latestServerUpdate.players.length) st st' hrun
      pr hpr with hmem | hgood
  · rw [hsp] at hmem
    exact absurd hmem (by simp)
  · exact hgood

/-- Witness for the amended C4: two matched remote players (`k = 2`), one
bullet and one event attached to `target`, fired by the non-rendered player
`L` at `(5, 5)`: two spawns and two event replays, each spawn at `L`'s
current position `(5, 5)`, not at the bullet's historical `(9, 9)`. -/
theorem claim_C4_witness :
    (remoteLoop ⟨false, true, false⟩ 0 (1 / 2) sampleTwoTarg sampleTwoTarg
        sampleTwoPrev sampleTwoState = some sampleTwoResult ∧
      sampleTwoState.spawned = [] ∧ sampleTwoState.fired = []) ∧
    (sampleTwoResult.spawned.length =
        ((List.range sampleTwoTarg.players.length).countP
          (fun j => replayedIndex sampleTwoTarg sampleTwoTarg sampleTwoPrev
            sampleTwoState.positions j)) * sampleTwoTarg.bullets.length ∧
      sampleTwoResult.fired.length =
        ((List.range sampleTwoTarg.players.length).countP
          (fun j => replayedIndex sampleTwoTarg sampleTwoTarg sampleTwoPrev
            sampleTwoState.positions j)) * sampleTwoTarg.events.length ∧
      ((∀ b ∈ sampleTwoTarg.bullets, ∀ j pd,
          sampleTwoTarg.players.get? j = some pd → pd.id ≠ b.firedBy) →
        ∀ pr ∈ sampleTwoResult.spawned, pr.1 ∈ sampleTwoTarg.bullets ∧
          lookupAssoc sampleTwoState.positions pr.1.firedBy = some pr.2)) ∧
    sampleTwoResult.spawned
      = [(⟨"L", 9, 9⟩, ⟨5, 5⟩), (⟨"L", 9, 9⟩, ⟨5, 5⟩)] ∧
    sampleTwoResult.spawned.length = 2 ∧ sampleTwoResult.fired.length = 2 :=
  ⟨⟨by norm_num [remoteLoop, runSteps, remotePlayerStep, runBullets, runEvents,
      lookupAssoc, setAssoc, sampleTwoPrev, sampleTwoTarg, sampleTwoState,
      sampleTwoResult, lerp, interpolate, List.range_succ]; decide,
      by decide, by decide⟩,
    claim_C4 ⟨false, true, false⟩ 0 (1 / 2) sampleTwoTarg sampleTwoTarg
      sampleTwoPrev sampleTwoState sampleTwoResult
      (by norm_num [remoteLoop, runSteps, remotePlayerStep, runBullets, runEvents,
        lookupAssoc, setAssoc, sampleTwoPrev, sampleTwoTarg, sampleTwoState,
        sampleTwoResult, lerp, interpolate, List.range_succ]; decide)
      (by decide) (by decide),
    by decide, by decide, by decide⟩

end ClientGame
